import Mathlib

/-!
Verification development for the sparseshift shift-kernel code
(src/torchshifts/csrc/kernels/shifts_kernels.h together with the host entry
points in src/torchshifts/csrc/cuda/shifts_cuda.cu).

Embedding conventions: the C scalar type scalar_t is modelled by the rationals,
the index type idx_t by the integers, and every strided tensor buffer by a
total function from integer addresses to values.  ABS and ADD come from the
repository's global_scope.h (not shipped under src/): ABS is the integer
absolute value and ADD p v is the (atomic) in-place addition *p += v, which we
model by explicit accumulator updates.
-/

/-- Padding policies, mirroring enum class BIPadding in shifts_kernels.h
(Zeros, Border, Periodic, Reflect, Symmetric in this order). -/
inductive BIPadding : Type
  | Zeros
  | Border
  | Periodic
  | Reflect
  | Symmetric
  deriving DecidableEq

/-- mod from shifts_kernels.h line 8: (b + (a % b)) % b where C's % on
integers is the truncating remainder, i.e. Int.tmod. -/
def mod (a b : ℤ) : ℤ := (b + a.tmod b).tmod b

/-- infer_index from shifts_kernels.h lines 10-38.  C's integer division on
the nonnegative operands appearing here is the truncating division Int.tdiv,
and the final & 1 of a nonnegative quantity is its remainder modulo 2. -/
def infer_index (index len : ℤ) (padding_mode : BIPadding) : ℤ :=
  if index < len ∧ 0 ≤ index then index
  else
    match padding_mode with
    | BIPadding.Zeros => -1
    | BIPadding.Border => if len ≤ index then len - 1 else 0
    | BIPadding.Periodic => mod index len
    | BIPadding.Reflect =>
        if len = 1 then 0
        else
          let neg : ℤ := if index < 0 then 1 else 0
          let out_index := mod index (len - 1)
          if (neg + (|index| - neg).tdiv (len - 1)).tmod 2 = 1 then
            len - 1 - out_index
          else out_index
    | BIPadding.Symmetric =>
        let neg : ℤ := if index < 0 then 1 else 0
        let out_index := mod index len
        if (neg + (|index| - neg).tdiv len).tmod 2 = 1 then
          len - 1 - out_index
        else out_index

/-- Modelled from the spec: the repository's interpolation.h (the Interpolator
component of §4.3) is not shipped under src/.  Rank-1 linear blend of the two
corner values v1 (low) and v2 (high) with fractional offset x. -/
def interp1D (v1 v2 x : ℚ) : ℚ := v1 * (1 - x) + v2 * x

/-- Modelled from the spec: interpolation.h is not under src/.  Exact partial
derivative of interp1D with respect to its fractional offset. -/
def interp1D_dx (v1 v2 : ℚ) : ℚ := v2 - v1

/-- Modelled from the spec: interpolation.h is not under src/.  Rank-2
bilinear blend; x blends along the first axis (v1 against v2 and v3 against
v4) and y blends along the second axis, matching the corner ordering of
get_shifted_values (axis-1 low/high innermost). -/
def interp2D (v1 v2 v3 v4 x y : ℚ) : ℚ := interp1D (interp1D v1 v2 x) (interp1D v3 v4 x) y

/-- Modelled from the spec: interpolation.h is not under src/.  Exact partial
derivative of interp2D with respect to its first fractional offset. -/
def interp2D_dx (v1 v2 v3 v4 y : ℚ) : ℚ := interp1D (v2 - v1) (v4 - v3) y

/-- Modelled from the spec: interpolation.h is not under src/.  Exact partial
derivative of interp2D with respect to its second fractional offset. -/
def interp2D_dy (v1 v2 v3 v4 x : ℚ) : ℚ := interp1D (v3 - v1) (v4 - v2) x

/-- Modelled from the spec: interpolation.h is not under src/.  Rank-3
trilinear blend; z blends the two bilinear layers. -/
def interp3D (v1 v2 v3 v4 v5 v6 v7 v8 x y z : ℚ) : ℚ :=
  interp1D (interp2D v1 v2 v3 v4 x y) (interp2D v5 v6 v7 v8 x y) z

/-- Modelled from the spec: interpolation.h is not under src/.  Exact partial
derivative of interp3D with respect to its first fractional offset. -/
def interp3D_dx (v1 v2 v3 v4 v5 v6 v7 v8 y z : ℚ) : ℚ :=
  interp2D (v2 - v1) (v4 - v3) (v6 - v5) (v8 - v7) y z

/-- Modelled from the spec: interpolation.h is not under src/.  Exact partial
derivative of interp3D with respect to its second fractional offset. -/
def interp3D_dy (v1 v2 v3 v4 v5 v6 v7 v8 x z : ℚ) : ℚ :=
  interp2D (v3 - v1) (v4 - v2) (v7 - v5) (v8 - v6) x z

/-- Modelled from the spec: interpolation.h is not under src/.  Exact partial
derivative of interp3D with respect to its third fractional offset. -/
def interp3D_dz (v1 v2 v3 v4 v5 v6 v7 v8 x y : ℚ) : ℚ :=
  interp2D (v5 - v1) (v6 - v2) (v7 - v3) (v8 - v4) x y

/-- get_shifted_value from shifts_kernels.h lines 40-58: resolve each axis
through infer_index and read the strided buffer, or return the fill value
zero_point when any resolved index is negative (the Zeros sentinel). -/
def get_shifted_value (i_shifted sizeH strideH j_shifted sizeW strideW
    k_shifted sizeD strideD c strideC : ℤ) (array : ℤ → ℚ) (zero_point : ℚ)
    (padding_mode : BIPadding) : ℚ :=
  let tidx_i := infer_index i_shifted sizeH padding_mode
  let tidx_j := infer_index j_shifted sizeW padding_mode
  let tidx_k := infer_index k_shifted sizeD padding_mode
  if 0 ≤ tidx_i ∧ 0 ≤ tidx_j ∧ 0 ≤ tidx_k then
    array (tidx_i * strideH + tidx_j * strideW + tidx_k * strideD + c * strideC)
  else zero_point

/-- The local C array scalar_t _vals_array[8] used by the kernels, as a record
of its eight slots. -/
structure Vals8 where
  v0 : ℚ
  v1 : ℚ
  v2 : ℚ
  v3 : ℚ
  v4 : ℚ
  v5 : ℚ
  v6 : ℚ
  v7 : ℚ

/-- All-zero initial contents of _vals_array. -/
def zeroVals8 : Vals8 := ⟨0, 0, 0, 0, 0, 0, 0, 0⟩

/-- get_shifted_values from shifts_kernels.h lines 60-87: gather the corner
values into the output array.  Slots 0 and 1 are always written; slots 2-3
only when sizeW > 1 and slots 4-7 only when sizeD > 1, the remaining slots
keeping their previous contents (the array is reused across calls in the
channel-last kernels). -/
def get_shifted_values (i_shifted sizeH strideH j_shifted sizeW strideW
    k_shifted sizeD strideD c strideC : ℤ) (array : ℤ → ℚ) (zero_point : ℚ)
    (padding_mode : BIPadding) (output_values : Vals8) : Vals8 :=
  let g := fun ii jj kk => get_shifted_value ii sizeH strideH jj sizeW strideW
    kk sizeD strideD c strideC array zero_point padding_mode
  let o1 := { output_values with
    v0 := g i_shifted j_shifted k_shifted
    v1 := g (i_shifted + 1) j_shifted k_shifted }
  let o2 := if 1 < sizeW then
      { o1 with
        v2 := g i_shifted (j_shifted + 1) k_shifted
        v3 := g (i_shifted + 1) (j_shifted + 1) k_shifted }
    else o1
  if 1 < sizeD then
    { o2 with
      v4 := g i_shifted j_shifted (k_shifted + 1)
      v5 := g (i_shifted + 1) j_shifted (k_shifted + 1)
      v6 := g i_shifted (j_shifted + 1) (k_shifted + 1)
      v7 := g (i_shifted + 1) (j_shifted + 1) (k_shifted + 1) }
  else o2

/-- compute_interpolated from shifts_kernels.h lines 90-98: select the
interpolation rank by sizeD > 1, then sizeW > 1, else rank 1. -/
def compute_interpolated (v : Vals8) (diff_shiftH diff_shiftW diff_shiftD : ℚ)
    (sizeH sizeW sizeD : ℤ) : ℚ :=
  if 1 < sizeD then
    interp3D v.v0 v.v1 v.v2 v.v3 v.v4 v.v5 v.v6 v.v7 diff_shiftH diff_shiftW diff_shiftD
  else if 1 < sizeW then
    interp2D v.v0 v.v1 v.v2 v.v3 diff_shiftH diff_shiftW
  else interp1D v.v0 v.v1 diff_shiftH

/-- shift_forward_kernel_nchwd from shifts_kernels.h lines 122-158.  The C
function stores one scalar at output offset n*output_sN + c*output_sC +
i*output_sH + j*output_sW + k*output_sD; this embedding returns that scalar
(the output strides play no role in its value). -/
def shift_forward_kernel_nchwd (input : ℤ → ℚ) (weights : ℤ → ℤ) (dweights : ℤ → ℚ)
    (n c i j k sizeH sizeW sizeD : ℤ)
    (input_sN input_sC input_sH input_sW input_sD : ℤ)
    (weights_sC weights_sS dweights_sC dweights_sS : ℤ)
    (padding_mode : BIPadding) (active : Bool) : ℚ :=
  let input_NC : ℤ → ℚ := fun a => input (n * input_sN + c * input_sC + a)
  let zp : ℚ := 0
  let shifts0 : ℤ := weights (c * weights_sC)
  let shifts1 : ℤ := if 1 < sizeW then weights (c * weights_sC + weights_sS) else 0
  let shifts2 : ℤ := if 1 < sizeD then weights (c * weights_sC + 2 * weights_sS) else 0
  if active then
    let vals := get_shifted_values (i - shifts0) sizeH input_sH (j - shifts1) sizeW input_sW
      (k - shifts2) sizeD input_sD 0 0 input_NC zp padding_mode zeroVals8
    let dshifts0 : ℚ := dweights (c * dweights_sC)
    let dshifts1 : ℚ := if 1 < sizeW then dweights (c * dweights_sC + dweights_sS) else 0
    let dshifts2 : ℚ := if 1 < sizeD then dweights (c * dweights_sC + 2 * dweights_sS) else 0
    compute_interpolated vals dshifts0 dshifts1 dshifts2 sizeH sizeW sizeD
  else
    get_shifted_value (i - shifts0) sizeH input_sH (j - shifts1) sizeW input_sW
      (k - shifts2) sizeD input_sD 0 0 input_NC zp padding_mode

/-- Sampling as described by the spec (§4.1 and §4.2): resolve each axis
through the index resolver and read the strided buffer, with fill value 0
when any axis resolves to the invalid sentinel. -/
def specSampleAt (buf : ℤ → ℚ) (bi bj bk sizeH sizeW sizeD strideH strideW strideD : ℤ)
    (pm : BIPadding) : ℚ :=
  let ri := infer_index bi sizeH pm
  let rj := infer_index bj sizeW pm
  let rk := infer_index bk sizeD pm
  if 0 ≤ ri ∧ 0 ≤ rj ∧ 0 ≤ rk then buf (ri * strideH + rj * strideW + rk * strideD)
  else 0

/-- Rank-1 linear blend of a corner selector, spec form (§4.3). -/
def specNLinear1 (s : Bool → ℚ) (x : ℚ) : ℚ := (1 - x) * s false + x * s true

/-- Rank-2 bilinear blend of a corner selector, spec form (§4.3). -/
def specNLinear2 (s : Bool → Bool → ℚ) (x y : ℚ) : ℚ :=
  (1 - x) * (1 - y) * s false false + x * (1 - y) * s true false +
  (1 - x) * y * s false true + x * y * s true true

/-- Rank-3 trilinear blend of a corner selector, spec form (§4.3). -/
def specNLinear3 (s : Bool → Bool → Bool → ℚ) (x y z : ℚ) : ℚ :=
  (1 - x) * (1 - y) * (1 - z) * s false false false +
  x * (1 - y) * (1 - z) * s true false false +
  (1 - x) * y * (1 - z) * s false true false +
  x * y * (1 - z) * s true true false +
  (1 - x) * (1 - y) * z * s false false true +
  x * (1 - y) * z * s true false true +
  (1 - x) * y * z * s false true true +
  x * y * z * s true true true

/-- Corner displacement along one axis: 0 for the low corner, 1 for the high
corner. -/
def boolStep : Bool → ℤ
  | false => 0
  | true => 1

/-- Forward per-element semantics as stated by the spec (§4.4, claim C1):
subtract the channel's integer shift from the output coordinate (an axis of
extent 1 is inactive and carries no shift, §4.2 and §7); when active, gather
the 2^rank corners at the base coordinate and blend them N-linearly with the
channel's fractional offsets, the rank selected by extent > 1 in the priority
order axis-3, axis-2, axis-1; when inactive, resolve the single shifted index
per axis and copy, with fill value 0 if any axis is invalid. -/
def specForward_nchwd (input : ℤ → ℚ) (weights : ℤ → ℤ) (dweights : ℤ → ℚ)
    (n c i j k sizeH sizeW sizeD : ℤ)
    (input_sN input_sC input_sH input_sW input_sD : ℤ)
    (weights_sC weights_sS dweights_sC dweights_sS : ℤ)
    (pm : BIPadding) (active : Bool) : ℚ :=
  let buf : ℤ → ℚ := fun a => input (n * input_sN + c * input_sC + a)
  let sH : ℤ := weights (c * weights_sC)
  let sW : ℤ := if 1 < sizeW then weights (c * weights_sC + weights_sS) else 0
  let sD : ℤ := if 1 < sizeD then weights (c * weights_sC + 2 * weights_sS) else 0
  let bi := i - sH
  let bj := j - sW
  let bk := k - sD
  if active then
    let dH : ℚ := dweights (c * dweights_sC)
    let dW : ℚ := if 1 < sizeW then dweights (c * dweights_sC + dweights_sS) else 0
    let dD : ℚ := if 1 < sizeD then dweights (c * dweights_sC + 2 * dweights_sS) else 0
    let corner : Bool → Bool → Bool → ℚ := fun a b c2 =>
      specSampleAt buf (bi + boolStep a) (bj + boolStep b) (bk + boolStep c2)
        sizeH sizeW sizeD input_sH input_sW input_sD pm
    if 1 < sizeD then specNLinear3 corner dH dW dD
    else if 1 < sizeW then specNLinear2 (fun a b => corner a b false) dH dW
    else specNLinear1 (fun a => corner a false false) dH
  else specSampleAt buf bi bj bk sizeH sizeW sizeD input_sH input_sW input_sD pm

/-- Input buffer used by the C8 counterexample: value 1 at address 0, zero
elsewhere. -/
def c8input : ℤ → ℚ := fun a => if a = 0 then 1 else 0

/-- torch::round as used by the host entry points: round to nearest with
half-way cases to the nearest even integer. -/
def torchRound (x : ℚ) : ℤ :=
  if x - ⌊x⌋ = 1/2 then (if 2 ∣ ⌊x⌋ then ⌊x⌋ else ⌊x⌋ + 1) else round x

/-- iweights as computed by shiftnd_forward_cpu (shifts_cuda.cu line 491) and
shiftnd_backward_cpu (line 513): floor of the weight when interpolation is
active, torch::round of it otherwise, per (channel, axis) entry. -/
def host_iweights (active : Bool) (w : ℚ) : ℤ := if active then ⌊w⌋ else torchRound w

/-- dweights as computed by shiftnd_backward_cpu (shifts_cuda.cu line 514),
unconditionally: the weight minus its floor. -/
def host_dweights_backward (w : ℚ) : ℚ := w - ⌊w⌋

/-- dweights as computed by shiftnd_forward_cpu (shifts_cuda.cu lines
492-495): weight minus floor when active; otherwise the buffer comes from
torch::empty_like and holds unspecified contents, modelled by an arbitrary
garbage value. -/
def host_dweights_forward (active : Bool) (w garbage : ℚ) : ℚ :=
  if active then w - ⌊w⌋ else garbage

/-- compute_weight_gradients from shifts_kernels.h lines 100-120: write the
partial-derivative components selected by the rank conditions into the output
triple, leaving unselected components at their previous values (the output
array persists across loop iterations in the channel-last kernel, and nothing
is written at all when every spatial extent is 1). -/
def compute_weight_gradients (v : Vals8) (diff_shiftH diff_shiftW diff_shiftD : ℚ)
    (sizeH sizeW sizeD : ℤ) (output_grad : ℚ × ℚ × ℚ) : ℚ × ℚ × ℚ :=
  if 1 < sizeD then
    (interp3D_dx v.v0 v.v1 v.v2 v.v3 v.v4 v.v5 v.v6 v.v7 diff_shiftW diff_shiftD,
     interp3D_dy v.v0 v.v1 v.v2 v.v3 v.v4 v.v5 v.v6 v.v7 diff_shiftH diff_shiftD,
     interp3D_dz v.v0 v.v1 v.v2 v.v3 v.v4 v.v5 v.v6 v.v7 diff_shiftH diff_shiftW)
  else if 1 < sizeW then
    (interp2D_dx v.v0 v.v1 v.v2 v.v3 diff_shiftW,
     interp2D_dy v.v0 v.v1 v.v2 v.v3 diff_shiftH,
     output_grad.2.2)
  else if 1 < sizeH then
    (interp1D_dx v.v0 v.v1, output_grad.2.1, output_grad.2.2)
  else output_grad

/-- The tensor- and stride-level arguments shared by every per-element
invocation of the backward kernels.  In the backward entry points the
upstream gradient tensor is passed as the kernels' input_grad argument and
the computed input-gradient tensor as their output_grad argument. -/
structure BwEnv where
  input_grad : ℤ → ℚ
  input : ℤ → ℚ
  weights : ℤ → ℤ
  dweights : ℤ → ℚ
  sizeH : ℤ
  sizeW : ℤ
  sizeD : ℤ
  input_grad_sN : ℤ
  input_grad_sC : ℤ
  input_grad_sH : ℤ
  input_grad_sW : ℤ
  input_grad_sD : ℤ
  input_sN : ℤ
  input_sC : ℤ
  input_sH : ℤ
  input_sW : ℤ
  input_sD : ℤ
  output_grad_sN : ℤ
  output_grad_sC : ℤ
  output_grad_sH : ℤ
  output_grad_sW : ℤ
  output_grad_sD : ℤ
  weights_sC : ℤ
  weights_sS : ℤ
  dweights_sC : ℤ
  dweights_sS : ℤ
  weights_grad_sC : ℤ
  weights_grad_sS : ℤ
  padding_mode : BIPadding
  active : Bool

/-- One point (n, c, i, j, k) of the flattened backward iteration space. -/
structure Pos5 where
  n : ℤ
  c : ℤ
  i : ℤ
  j : ℤ
  k : ℤ
  deriving DecidableEq

/-- The integer shifts triple read by shift_backward_kernel_nchwd (lines
176-183): entries for the second and third axes are read only when the
corresponding extent exceeds 1, else they stay 0. -/
def backward_nchwd_shifts (e : BwEnv) (p : Pos5) : ℤ × ℤ × ℤ :=
  (e.weights (p.c * e.weights_sC),
   if 1 < e.sizeW then e.weights (p.c * e.weights_sC + e.weights_sS) else 0,
   if 1 < e.sizeD then e.weights (p.c * e.weights_sC + 2 * e.weights_sS) else 0)

/-- The fractional shifts triple read by shift_backward_kernel_nchwd (lines
177-183), gated exactly like the integer shifts. -/
def backward_nchwd_dshifts (e : BwEnv) (p : Pos5) : ℚ × ℚ × ℚ :=
  (e.dweights (p.c * e.dweights_sC),
   if 1 < e.sizeW then e.dweights (p.c * e.dweights_sC + e.dweights_sS) else 0,
   if 1 < e.sizeD then e.dweights (p.c * e.dweights_sC + 2 * e.dweights_sS) else 0)

/-- shift_backward_kernel_nchwd from shifts_kernels.h lines 160-209, value
part.  Returns the scalar the kernel stores to output_grad (the
input-gradient result) at this element, together with the _new_weights_grad
triple computed by re-sampling the original input at coord - shift; the
_vals_array buffer is freshly zero-initialized per call and is reused by the
second gather exactly as in the source.  As in the source (lines 186-197),
the gathers from the upstream-gradient buffer input_grad_NC use the INPUT
tensor's spatial strides input_sH/input_sW/input_sD, while the batch/channel
base offset and the scalar read at line 171 use the gradient's own strides.
The accumulator ADDs into weights_grad are modelled by
shift_backward_kernel_nchwd_addweights. -/
def shift_backward_kernel_nchwd_run (e : BwEnv) (p : Pos5) : ℚ × (ℚ × ℚ × ℚ) :=
  let input_grad_NC : ℤ → ℚ := fun a =>
    e.input_grad (p.n * e.input_grad_sN + p.c * e.input_grad_sC + a)
  let input_NC : ℤ → ℚ := fun a => e.input (p.n * e.input_sN + p.c * e.input_sC + a)
  let s := backward_nchwd_shifts e p
  let ds := backward_nchwd_dshifts e p
  let step1 : Vals8 × ℚ :=
    if e.active then
      let v := get_shifted_values (p.i - s.1) e.sizeH e.input_sH
        (p.j - s.2.1) e.sizeW e.input_sW (p.k - s.2.2) e.sizeD e.input_sD
        0 0 input_grad_NC 0 e.padding_mode zeroVals8
      (v, compute_interpolated v ds.1 ds.2.1 ds.2.2 e.sizeH e.sizeW e.sizeD)
    else
      (zeroVals8,
       get_shifted_value (p.i + s.1) e.sizeH e.input_sH
        (p.j + s.2.1) e.sizeW e.input_sW (p.k + s.2.2) e.sizeD e.input_sD
        0 0 input_grad_NC 0 e.padding_mode)
  let vals2 := get_shifted_values (p.i - s.1) e.sizeH e.input_sH
    (p.j - s.2.1) e.sizeW e.input_sW (p.k - s.2.2) e.sizeD e.input_sD
    0 0 input_NC 0 e.padding_mode step1.1
  (step1.2, compute_weight_gradients vals2 ds.1 ds.2.1 ds.2.2 e.sizeH e.sizeW e.sizeD (0, 0, 0))

/-- The upstream-gradient scalar input_grad_NCHWD_val read at line 171. -/
def backward_upstream_val (e : BwEnv) (p : Pos5) : ℚ :=
  e.input_grad (p.n * e.input_grad_sN + p.c * e.input_grad_sC +
    p.i * e.input_grad_sH + p.j * e.input_grad_sW + p.k * e.input_grad_sD)

/-- ADD from global_scope.h: atomic in-place addition into a buffer cell,
modelled as a pointwise functional update. -/
def applyAdd (buf : ℤ → ℚ) (addr : ℤ) (amt : ℚ) : ℤ → ℚ :=
  fun a => if a = addr then buf a + amt else buf a

/-- The weights_grad accumulator updates of shift_backward_kernel_nchwd
(lines 206-208): always ADD the first-axis contribution, and the second/third
axis contributions only when the corresponding extent exceeds 1. -/
def shift_backward_kernel_nchwd_addweights (e : BwEnv) (p : Pos5)
    (weights_grad : ℤ → ℚ) : ℤ → ℚ :=
  let g := backward_upstream_val e p
  let nwg := (shift_backward_kernel_nchwd_run e p).2
  let gw1 := applyAdd weights_grad (p.c * e.weights_grad_sC) (g * nwg.1)
  let gw2 := if 1 < e.sizeW then
      applyAdd gw1 (p.c * e.weights_grad_sC + e.weights_grad_sS) (g * nwg.2.1)
    else gw1
  if 1 < e.sizeD then
    applyAdd gw2 (p.c * e.weights_grad_sC + 2 * e.weights_grad_sS) (g * nwg.2.2)
  else gw2

/-- Executing the backward pass over a list of iteration points, threading the
weights_grad accumulator through the per-element ADDs. -/
def run_backward_weights_grad (e : BwEnv) (l : List Pos5) (gw0 : ℤ → ℚ) : ℤ → ℚ :=
  l.foldl (fun gw p => shift_backward_kernel_nchwd_addweights e p gw) gw0

/-- The total amount the backward kernel at point p adds to accumulator
address a: per-axis contribution upstream-gradient x partial-derivative,
counted for each of the (channel, axis) slots that alias address a. -/
def weights_grad_contribution_at (e : BwEnv) (p : Pos5) (a : ℤ) : ℚ :=
  let g := backward_upstream_val e p
  let nwg := (shift_backward_kernel_nchwd_run e p).2
  (if a = p.c * e.weights_grad_sC then g * nwg.1 else 0) +
  (if 1 < e.sizeW then
    (if a = p.c * e.weights_grad_sC + e.weights_grad_sS then g * nwg.2.1 else 0) else 0) +
  (if 1 < e.sizeD then
    (if a = p.c * e.weights_grad_sC + 2 * e.weights_grad_sS then g * nwg.2.2 else 0) else 0)

/-- Backward input-gradient semantics as stated by the spec (§4.5, claim C2):
in interpolating mode, gather the 2^rank corners of the upstream-gradient
buffer at coord - shift and interpolate them with the same fractional offsets
as forward; in non-interpolating mode, read the upstream gradient directly at
coord + shift through the same padding policy. -/
def specBackwardInputGrad (e : BwEnv) (p : Pos5) : ℚ :=
  let buf : ℤ → ℚ := fun a =>
    e.input_grad (p.n * e.input_grad_sN + p.c * e.input_grad_sC + a)
  let s := backward_nchwd_shifts e p
  if e.active then
    let ds := backward_nchwd_dshifts e p
    let corner : Bool → Bool → Bool → ℚ := fun a b c2 =>
      specSampleAt buf (p.i - s.1 + boolStep a) (p.j - s.2.1 + boolStep b)
        (p.k - s.2.2 + boolStep c2) e.sizeH e.sizeW e.sizeD
        e.input_grad_sH e.input_grad_sW e.input_grad_sD e.padding_mode
    if 1 < e.sizeD then specNLinear3 corner ds.1 ds.2.1 ds.2.2
    else if 1 < e.sizeW then specNLinear2 (fun a b => corner a b false) ds.1 ds.2.1
    else specNLinear1 (fun a => corner a false false) ds.1
  else
    specSampleAt buf (p.i + s.1) (p.j + s.2.1) (p.k + s.2.2) e.sizeH e.sizeW e.sizeD
      e.input_grad_sH e.input_grad_sW e.input_grad_sD e.padding_mode

/-- Environment for the C3 witness: one channel, first-axis extent 2, W and D
extent 1, contiguous strides, Zeros padding, interpolating mode. -/
def c3env : BwEnv where
  input_grad := fun a => (a : ℚ)
  input := fun a => (a : ℚ) + 1
  weights := fun _ => 0
  dweights := fun _ => 1/2
  sizeH := 2
  sizeW := 1
  sizeD := 1
  input_grad_sN := 2
  input_grad_sC := 2
  input_grad_sH := 1
  input_grad_sW := 0
  input_grad_sD := 0
  input_sN := 2
  input_sC := 2
  input_sH := 1
  input_sW := 0
  input_sD := 0
  output_grad_sN := 2
  output_grad_sC := 2
  output_grad_sH := 1
  output_grad_sW := 0
  output_grad_sD := 0
  weights_sC := 1
  weights_sS := 1
  dweights_sC := 1
  dweights_sS := 1
  weights_grad_sC := 1
  weights_grad_sS := 1
  padding_mode := BIPadding.Zeros
  active := true

/-- First iteration point of the C3 witness. -/
def c3p0 : Pos5 := ⟨0, 0, 0, 0, 0⟩

/-- Second iteration point of the C3 witness. -/
def c3p1 : Pos5 := ⟨0, 0, 1, 0, 0⟩

/-- Loop-carried state of shift_backward_kernel_nhwdc (shifts_kernels.h lines
264-273): the local arrays declared before the channel loop, plus the two
written tensors.  The dshifts array is modelled as a function on ℕ because
the source stores to index 3 of the 3-element array (line 277). -/
structure NhwdcState where
  shifts0 : ℤ
  shifts1 : ℤ
  shifts2 : ℤ
  dshifts : ℕ → ℚ
  vals : Vals8
  nwg : ℚ × ℚ × ℚ
  output_grad : ℤ → ℚ
  weights_grad : ℤ → ℚ

/-- The declared length of the local array scalar_t dshifts[3] in
shift_backward_kernel_nhwdc (line 271). -/
def dshifts_declared_len : ℕ := 3

/-- One iteration of the channel loop of shift_backward_kernel_nhwdc
(shifts_kernels.h lines 274-309) for channel c.  Line 277 of the source reads
dshifts[3] = *(dweights + c*dweights_sC): the store targets index 3, one past
the end of the 3-element array, and index 0 is never stored, so dshifts[0]
keeps its previous contents when it is consumed.  As in the source (lines
286-297), the reads from the upstream-gradient buffer input_grad_N use the
INPUT tensor's spatial strides input_sH/input_sW/input_sD together with the
gradient's channel stride input_grad_sC; the scalar read at line 305 uses the
gradient's own strides throughout. -/
def nhwdc_bw_step (e : BwEnv) (n i j k : ℤ) (st : NhwdcState) (c : ℤ) : NhwdcState :=
  let input_grad_N : ℤ → ℚ := fun a => e.input_grad (n * e.input_grad_sN + a)
  let input_N : ℤ → ℚ := fun a => e.input (n * e.input_sN + a)
  let shifts0 := e.weights (c * e.weights_sC)
  let ds0 := Function.update st.dshifts 3 (e.dweights (c * e.dweights_sC))
  let shifts1 := if 1 < e.sizeW then e.weights (e.weights_sS + c * e.weights_sC)
    else st.shifts1
  let ds1 := if 1 < e.sizeW then
      Function.update ds0 1 (e.dweights (e.dweights_sS + c * e.dweights_sC))
    else ds0
  let shifts2 := if 1 < e.sizeD then e.weights (2 * e.weights_sS + c * e.weights_sC)
    else st.shifts2
  let ds := if 1 < e.sizeD then
      Function.update ds1 2 (e.dweights (2 * e.dweights_sS + c * e.dweights_sC))
    else ds1
  let og_addr := n * e.output_grad_sN + i * e.output_grad_sH + j * e.output_grad_sW +
    k * e.output_grad_sD + c * e.output_grad_sC
  let step1 : Vals8 × ℚ :=
    if e.active then
      let v := get_shifted_values (i - shifts0) e.sizeH e.input_sH
        (j - shifts1) e.sizeW e.input_sW (k - shifts2) e.sizeD e.input_sD
        c e.input_grad_sC input_grad_N 0 e.padding_mode st.vals
      (v, compute_interpolated v (ds 0) (ds 1) (ds 2) e.sizeH e.sizeW e.sizeD)
    else
      (st.vals, get_shifted_value (i + shifts0) e.sizeH e.input_sH
        (j + shifts1) e.sizeW e.input_sW (k + shifts2) e.sizeD e.input_sD
        c e.input_grad_sC input_grad_N 0 e.padding_mode)
  let og := fun a => if a = og_addr then step1.2 else st.output_grad a
  let vals2 := get_shifted_values (i - shifts0) e.sizeH e.input_sH
    (j - shifts1) e.sizeW e.input_sW (k - shifts2) e.sizeD e.input_sD
    c e.input_sC input_N 0 e.padding_mode step1.1
  let nwg := compute_weight_gradients vals2 (ds 0) (ds 1) (ds 2)
    e.sizeH e.sizeW e.sizeD st.nwg
  let gval := e.input_grad (n * e.input_grad_sN + i * e.input_grad_sH +
    j * e.input_grad_sW + k * e.input_grad_sD + c * e.input_grad_sC)
  let gw1 := applyAdd st.weights_grad (c * e.weights_grad_sC) (gval * nwg.1)
  let gw2 := if 1 < e.sizeW then
      applyAdd gw1 (e.weights_grad_sS + c * e.weights_grad_sC) (gval * nwg.2.1)
    else gw1
  let gw := if 1 < e.sizeD then
      applyAdd gw2 (2 * e.weights_grad_sS + c * e.weights_grad_sC) (gval * nwg.2.2)
    else gw2
  { shifts0 := shifts0, shifts1 := shifts1, shifts2 := shifts2, dshifts := ds,
    vals := vals2, nwg := nwg, output_grad := og, weights_grad := gw }

/-- Initial loop state of shift_backward_kernel_nhwdc: local arrays zeroed
(lines 268-273), buffers as passed in. -/
def nhwdc_bw_init (output_grad weights_grad : ℤ → ℚ) : NhwdcState :=
  { shifts0 := 0, shifts1 := 0, shifts2 := 0, dshifts := fun _ => 0,
    vals := zeroVals8, nwg := (0, 0, 0),
    output_grad := output_grad, weights_grad := weights_grad }

/-- shift_backward_kernel_nhwdc from shifts_kernels.h lines 254-310: the
channel loop c = 0 .. sizeC-1 threading the loop-carried local arrays and the
two written tensors. -/
def shift_backward_kernel_nhwdc (e : BwEnv) (sizeC n i j k : ℤ)
    (output_grad weights_grad : ℤ → ℚ) : NhwdcState :=
  (List.range sizeC.toNat).foldl
    (fun st cn => nhwdc_bw_step e n i j k st (Int.ofNat cn))
    (nhwdc_bw_init output_grad weights_grad)

/-- Environment for the C4 divergence: one channel, first-axis extent 2, 1-D
layout, interpolating mode, fractional offset 1/2, upstream gradient 1 and 3
at the two spatial positions, identical strides for both kernel variants. -/
def c4env : BwEnv where
  input_grad := fun a => if a = 0 then 1 else if a = 1 then 3 else 0
  input := fun _ => 0
  weights := fun _ => 0
  dweights := fun _ => 1/2
  sizeH := 2
  sizeW := 1
  sizeD := 1
  input_grad_sN := 2
  input_grad_sC := 2
  input_grad_sH := 1
  input_grad_sW := 0
  input_grad_sD := 0
  input_sN := 2
  input_sC := 2
  input_sH := 1
  input_sW := 0
  input_sD := 0
  output_grad_sN := 2
  output_grad_sC := 2
  output_grad_sH := 1
  output_grad_sW := 0
  output_grad_sD := 0
  weights_sC := 1
  weights_sS := 1
  dweights_sC := 1
  dweights_sS := 1
  weights_grad_sC := 1
  weights_grad_sS := 1
  padding_mode := BIPadding.Zeros
  active := true

/-- Environment for the C2 counterexample: a 1-D extent-2 configuration in
which the input tensor's spatial stride (2) differs from the upstream
gradient's (1); non-interpolating mode, Zeros padding, zero shift, gradient
values 1, 3, 5 at addresses 0, 1, 2. -/
def c2env : BwEnv where
  input_grad := fun a =>
    if a = 0 then 1 else if a = 1 then 3 else if a = 2 then 5 else 0
  input := fun _ => 0
  weights := fun _ => 0
  dweights := fun _ => 0
  sizeH := 2
  sizeW := 1
  sizeD := 1
  input_grad_sN := 2
  input_grad_sC := 2
  input_grad_sH := 1
  input_grad_sW := 0
  input_grad_sD := 0
  input_sN := 4
  input_sC := 4
  input_sH := 2
  input_sW := 0
  input_sD := 0
  output_grad_sN := 2
  output_grad_sC := 2
  output_grad_sH := 1
  output_grad_sW := 0
  output_grad_sD := 0
  weights_sC := 1
  weights_sS := 1
  dweights_sC := 1
  dweights_sS := 1
  weights_grad_sC := 1
  weights_grad_sS := 1
  padding_mode := BIPadding.Zeros
  active := false

theorem tmod_neg_left (a b : ℤ) : (-a).tmod b = -(a.tmod b) := by
  simp [Int.tmod_def, Int.neg_tdiv, Int.mul_neg, Int.neg_sub, Int.sub_eq_add_neg]
  ring

theorem tmod_lower_bound (a b : ℤ) (hb : 0 < b) : -b < a.tmod b := by
  rcases le_or_lt 0 a with ha | ha
  · have := Int.tmod_nonneg b ha
    omega
  · have h2 : (-a).tmod b < b := Int.tmod_lt_of_pos _ hb
    have h3 : (-a).tmod b = -(a.tmod b) := tmod_neg_left a b
    omega

theorem mod_pos_bounds (a b : ℤ) (hb : 0 < b) : 0 ≤ mod a b ∧ mod a b < b := by
  have h1 : -b < a.tmod b := tmod_lower_bound a b hb
  have h2 : a.tmod b < b := Int.tmod_lt_of_pos _ hb
  have h3 : (0 : ℤ) ≤ b + a.tmod b := by omega
  exact ⟨Int.tmod_nonneg _ h3, Int.tmod_lt_of_pos _ hb⟩

theorem infer_index_in_range_of_ne_zeros (idx len : ℤ) (pm : BIPadding)
    (hlen : 1 ≤ len) (hpm : pm ≠ BIPadding.Zeros) :
    0 ≤ infer_index idx len pm ∧ infer_index idx len pm < len := by
  by_cases hin : idx < len ∧ 0 ≤ idx
  · rw [infer_index.eq_def, if_pos hin]
    exact ⟨hin.2, hin.1⟩
  · cases pm with
    | Zeros => exact absurd rfl hpm
    | Border =>
        simp only [infer_index.eq_def, if_neg hin]
        by_cases hge : len ≤ idx
        · rw [if_pos hge]; omega
        · rw [if_neg hge]; omega
    | Periodic =>
        simp only [infer_index.eq_def, if_neg hin]
        exact mod_pos_bounds idx len (by omega)
    | Reflect =>
        simp only [infer_index.eq_def, if_neg hin]
        by_cases h1 : len = 1
        · rw [if_pos h1]; omega
        · rw [if_neg h1]
          have hmb := mod_pos_bounds idx (len - 1) (by omega)
          by_cases hodd :
              ((if idx < 0 then (1 : ℤ) else 0) +
                (|idx| - if idx < 0 then (1 : ℤ) else 0).tdiv (len - 1)).tmod 2 = 1
          · rw [if_pos hodd]; omega
          · rw [if_neg hodd]; omega
    | Symmetric =>
        simp only [infer_index.eq_def, if_neg hin]
        have hmb := mod_pos_bounds idx len (by omega)
        by_cases hodd :
            ((if idx < 0 then (1 : ℤ) else 0) +
              (|idx| - if idx < 0 then (1 : ℤ) else 0).tdiv len).tmod 2 = 1
        · rw [if_pos hodd]; omega
        · rw [if_neg hodd]; omega

/-- C5: for every integer idx, every len ≥ 1 and every padding mode,
infer_index returns idx unchanged when idx is already in [0, len); otherwise
it returns either a valid index in [0, len) or the invalid sentinel -1, and
the sentinel occurs only under the Zeros mode and only for out-of-range idx. -/
theorem C5_infer_index_contract (idx len : ℤ) (pm : BIPadding) (hlen : 1 ≤ len) :
    ((0 ≤ idx ∧ idx < len) → infer_index idx len pm = idx) ∧
    (infer_index idx len pm = -1 ∨
      (0 ≤ infer_index idx len pm ∧ infer_index idx len pm < len)) ∧
    (infer_index idx len pm = -1 → pm = BIPadding.Zeros ∧ ¬(0 ≤ idx ∧ idx < len)) := by
  refine ⟨fun hc => by rw [infer_index.eq_def, if_pos ⟨hc.2, hc.1⟩], ?_, ?_⟩
  · by_cases hpm : pm = BIPadding.Zeros
    · by_cases hin : idx < len ∧ 0 ≤ idx
      · right
        rw [infer_index.eq_def, if_pos hin]
        exact ⟨hin.2, hin.1⟩
      · left
        rw [infer_index.eq_def, if_neg hin, hpm]
    · right
      exact infer_index_in_range_of_ne_zeros idx len pm hlen hpm
  · intro hneg
    by_cases hpm : pm = BIPadding.Zeros
    · refine ⟨hpm, fun hc => ?_⟩
      rw [infer_index.eq_def, if_pos ⟨hc.2, hc.1⟩] at hneg
      omega
    · have := infer_index_in_range_of_ne_zeros idx len pm hlen hpm
      omega

/-- Witness for C5 at idx = 7, len = 3, Reflect mode. -/
theorem C5_infer_index_contract_witness :
    (1 : ℤ) ≤ 3 ∧
    (((0 ≤ (7 : ℤ) ∧ (7 : ℤ) < 3) → infer_index 7 3 BIPadding.Reflect = 7) ∧
      (infer_index 7 3 BIPadding.Reflect = -1 ∨
        (0 ≤ infer_index 7 3 BIPadding.Reflect ∧ infer_index 7 3 BIPadding.Reflect < 3)) ∧
      (infer_index 7 3 BIPadding.Reflect = -1 →
        BIPadding.Reflect = BIPadding.Zeros ∧ ¬(0 ≤ (7 : ℤ) ∧ (7 : ℤ) < 3))) :=
  ⟨by decide, C5_infer_index_contract 7 3 BIPadding.Reflect (by decide)⟩

/-- C6: boundary examples of infer_index at len = 5: Periodic maps -1 to 4 and
5 to 0; Reflect maps -1 to 1 and 5 to 3; Symmetric maps -1 to 0 and 5 to 4. -/
theorem C6_infer_index_boundary_examples :
    infer_index (-1) 5 BIPadding.Periodic = 4 ∧
    infer_index 5 5 BIPadding.Periodic = 0 ∧
    infer_index (-1) 5 BIPadding.Reflect = 1 ∧
    infer_index 5 5 BIPadding.Reflect = 3 ∧
    infer_index (-1) 5 BIPadding.Symmetric = 0 ∧
    infer_index 5 5 BIPadding.Symmetric = 4 := by
  decide

theorem get_shifted_value_eq_specSampleAt (i j k sizeH sizeW sizeD sH sW sD : ℤ)
    (buf : ℤ → ℚ) (pm : BIPadding) :
    get_shifted_value i sizeH sH j sizeW sW k sizeD sD 0 0 buf 0 pm =
      specSampleAt buf i j k sizeH sizeW sizeD sH sW sD pm := by
  simp [get_shifted_value, specSampleAt]

theorem shift_forward_kernel_nchwd_eq_spec (input : ℤ → ℚ) (weights : ℤ → ℤ)
    (dweights : ℤ → ℚ) (n c i j k sizeH sizeW sizeD : ℤ)
    (input_sN input_sC input_sH input_sW input_sD : ℤ)
    (weights_sC weights_sS dweights_sC dweights_sS : ℤ)
    (pm : BIPadding) (active : Bool) :
    shift_forward_kernel_nchwd input weights dweights n c i j k sizeH sizeW sizeD
      input_sN input_sC input_sH input_sW input_sD
      weights_sC weights_sS dweights_sC dweights_sS pm active =
    specForward_nchwd input weights dweights n c i j k sizeH sizeW sizeD
      input_sN input_sC input_sH input_sW input_sD
      weights_sC weights_sS dweights_sC dweights_sS pm active := by
  cases active with
  | false =>
      simp only [shift_forward_kernel_nchwd, specForward_nchwd, Bool.false_eq_true,
        if_false, get_shifted_value_eq_specSampleAt]
  | true =>
      by_cases hD : 1 < sizeD <;> by_cases hW : 1 < sizeW <;>
        simp only [shift_forward_kernel_nchwd, specForward_nchwd, get_shifted_values,
          compute_interpolated, get_shifted_value_eq_specSampleAt, boolStep, zeroVals8,
          specNLinear1, specNLinear2, specNLinear3, interp1D, interp2D, interp3D,
          hD, hW, if_true, if_false, ite_true, ite_false, add_zero] <;>
        ring

/-- C1: forward kernel per-element semantics.  For every output coordinate
(n, c, i, j, k) the kernel subtracts the channel's integer shift from the
output coordinate (inactive extent-1 axes carrying shift 0); when active it
gathers the 2^rank corners of the input at that base coordinate and stores
their N-linear interpolation with the channel's fractional offsets; when
inactive it resolves the single shifted index per axis through infer_index
and copies the input value, storing the fill value 0 if any axis resolves
invalid. -/
theorem C1_forward_kernel_per_element_semantics (input : ℤ → ℚ) (weights : ℤ → ℤ)
    (dweights : ℤ → ℚ) (n c i j k sizeH sizeW sizeD : ℤ)
    (input_sN input_sC input_sH input_sW input_sD : ℤ)
    (weights_sC weights_sS dweights_sC dweights_sS : ℤ)
    (pm : BIPadding) (active : Bool) :
    shift_forward_kernel_nchwd input weights dweights n c i j k sizeH sizeW sizeD
      input_sN input_sC input_sH input_sW input_sD
      weights_sC weights_sS dweights_sC dweights_sS pm active =
    specForward_nchwd input weights dweights n c i j k sizeH sizeW sizeD
      input_sN input_sC input_sH input_sW input_sD
      weights_sC weights_sS dweights_sC dweights_sS pm active :=
  shift_forward_kernel_nchwd_eq_spec input weights dweights n c i j k sizeH sizeW sizeD
    input_sN input_sC input_sH input_sW input_sD
    weights_sC weights_sS dweights_sC dweights_sS pm active

/-- C10: with active = false, the forward kernel takes the direct path and
never reads the fractional-part buffer, so two executions that differ only in
the dweights contents produce identical output. -/
theorem C10_direct_forward_ignores_dweights (input : ℤ → ℚ) (weights : ℤ → ℤ)
    (d1 d2 : ℤ → ℚ) (n c i j k sizeH sizeW sizeD : ℤ)
    (input_sN input_sC input_sH input_sW input_sD : ℤ)
    (weights_sC weights_sS dweights_sC dweights_sS : ℤ) (pm : BIPadding) :
    shift_forward_kernel_nchwd input weights d1 n c i j k sizeH sizeW sizeD
      input_sN input_sC input_sH input_sW input_sD
      weights_sC weights_sS dweights_sC dweights_sS pm false =
    shift_forward_kernel_nchwd input weights d2 n c i j k sizeH sizeW sizeD
      input_sN input_sC input_sH input_sW input_sD
      weights_sC weights_sS dweights_sC dweights_sS pm false := rfl

/-- C8 counterexample: the first spatial axis is NOT inactive at extent 1.
With sizeH = sizeW = sizeD = 1 and Zeros padding, the active forward kernel
still gathers two corners along the first axis and blends them with the
fractional offset, so the output depends on that offset (here 1/2 versus 0),
contradicting the claim that an extent-1 axis contributes no branching factor
and is never blended across. -/
theorem C8_counterexample_extent1_H_axis_blends :
    shift_forward_kernel_nchwd c8input (fun _ => 0) (fun _ => 1/2)
      0 0 0 0 0 1 1 1 0 0 1 0 0 0 0 0 0 BIPadding.Zeros true ≠
    shift_forward_kernel_nchwd c8input (fun _ => 0) (fun _ => 0)
      0 0 0 0 0 1 1 1 0 0 1 0 0 0 0 0 0 BIPadding.Zeros true := by
  norm_num [shift_forward_kernel_nchwd, get_shifted_values, get_shifted_value,
    compute_interpolated, interp1D, interp2D, interp3D, infer_index, mod,
    c8input, zeroVals8]

/-- C8 (amended): extent-1 inactive-axis rule for the second and third
spatial axes.  An extent-1 W or D axis never has its fractional entry read
and the interpolation does not blend across it: in every extent configuration
the active forward output equals the blend over the remaining axes at the
base coordinate, and two dweights buffers agreeing on the entries that are
read give identical output; the result is defined for every shift.  In the
one configuration with extent-1 W but extent > 1 D, the sampler still
gathers corners at j+1 (slots 6-7), but they carry zero blend weight and do
not affect the output, as the third equation shows.  The first axis is the
exception: it always contributes two corners and blends, even at extent 1. -/
theorem C8_amended_extent1_WD_axes_inactive (input : ℤ → ℚ) (weights : ℤ → ℤ)
    (d1 d2 : ℤ → ℚ) (n c i j k sizeH sizeW sizeD : ℤ)
    (input_sN input_sC input_sH input_sW input_sD : ℤ)
    (weights_sC weights_sS dweights_sC dweights_sS : ℤ) (pm : BIPadding) :
    (sizeW ≤ 1 → sizeD ≤ 1 → d1 (c * dweights_sC) = d2 (c * dweights_sC) →
      shift_forward_kernel_nchwd input weights d1 n c i j k sizeH sizeW sizeD
        input_sN input_sC input_sH input_sW input_sD
        weights_sC weights_sS dweights_sC dweights_sS pm true =
      shift_forward_kernel_nchwd input weights d2 n c i j k sizeH sizeW sizeD
        input_sN input_sC input_sH input_sW input_sD
        weights_sC weights_sS dweights_sC dweights_sS pm true ∧
      shift_forward_kernel_nchwd input weights d1 n c i j k sizeH sizeW sizeD
        input_sN input_sC input_sH input_sW input_sD
        weights_sC weights_sS dweights_sC dweights_sS pm true =
      interp1D
        (specSampleAt (fun a => input (n * input_sN + c * input_sC + a))
          (i - weights (c * weights_sC)) j k sizeH sizeW sizeD
          input_sH input_sW input_sD pm)
        (specSampleAt (fun a => input (n * input_sN + c * input_sC + a))
          (i - weights (c * weights_sC) + 1) j k sizeH sizeW sizeD
          input_sH input_sW input_sD pm)
        (d1 (c * dweights_sC))) ∧
    (1 < sizeW → sizeD ≤ 1 →
      d1 (c * dweights_sC) = d2 (c * dweights_sC) →
      d1 (c * dweights_sC + dweights_sS) = d2 (c * dweights_sC + dweights_sS) →
      shift_forward_kernel_nchwd input weights d1 n c i j k sizeH sizeW sizeD
        input_sN input_sC input_sH input_sW input_sD
        weights_sC weights_sS dweights_sC dweights_sS pm true =
      shift_forward_kernel_nchwd input weights d2 n c i j k sizeH sizeW sizeD
        input_sN input_sC input_sH input_sW input_sD
        weights_sC weights_sS dweights_sC dweights_sS pm true ∧
      shift_forward_kernel_nchwd input weights d1 n c i j k sizeH sizeW sizeD
        input_sN input_sC input_sH input_sW input_sD
        weights_sC weights_sS dweights_sC dweights_sS pm true =
      specNLinear2
        (fun a b =>
          specSampleAt (fun a2 => input (n * input_sN + c * input_sC + a2))
            (i - weights (c * weights_sC) + boolStep a)
            (j - weights (c * weights_sC + weights_sS) + boolStep b) k
            sizeH sizeW sizeD input_sH input_sW input_sD pm)
        (d1 (c * dweights_sC)) (d1 (c * dweights_sC + dweights_sS))) ∧
    (sizeW ≤ 1 → 1 < sizeD →
      d1 (c * dweights_sC) = d2 (c * dweights_sC) →
      d1 (c * dweights_sC + 2 * dweights_sS) = d2 (c * dweights_sC + 2 * dweights_sS) →
      shift_forward_kernel_nchwd input weights d1 n c i j k sizeH sizeW sizeD
        input_sN input_sC input_sH input_sW input_sD
        weights_sC weights_sS dweights_sC dweights_sS pm true =
      shift_forward_kernel_nchwd input weights d2 n c i j k sizeH sizeW sizeD
        input_sN input_sC input_sH input_sW input_sD
        weights_sC weights_sS dweights_sC dweights_sS pm true ∧
      shift_forward_kernel_nchwd input weights d1 n c i j k sizeH sizeW sizeD
        input_sN input_sC input_sH input_sW input_sD
        weights_sC weights_sS dweights_sC dweights_sS pm true =
      specNLinear2
        (fun a c2 =>
          specSampleAt (fun a2 => input (n * input_sN + c * input_sC + a2))
            (i - weights (c * weights_sC) + boolStep a) j
            (k - weights (c * weights_sC + 2 * weights_sS) + boolStep c2)
            sizeH sizeW sizeD input_sH input_sW input_sD pm)
        (d1 (c * dweights_sC)) (d1 (c * dweights_sC + 2 * dweights_sS))) := by
  refine ⟨fun hWa hDa hag => ?_, fun hWb hDb hag0 hag1 => ?_,
    fun hWc hDc hag2 hag3 => ?_⟩
  · have hW1 : ¬ 1 < sizeW := by omega
    have hD1 : ¬ 1 < sizeD := by omega
    constructor <;>
      simp only [shift_forward_kernel_nchwd, get_shifted_values, compute_interpolated,
        get_shifted_value_eq_specSampleAt, hW1, hD1, if_false, ite_false, if_true,
        ite_true, zeroVals8, interp1D, hag, sub_zero]
  · have hD1 : ¬ 1 < sizeD := by omega
    constructor
    · simp only [shift_forward_kernel_nchwd, get_shifted_values, compute_interpolated,
        get_shifted_value_eq_specSampleAt, hWb, hD1, if_false, ite_false, if_true,
        ite_true, zeroVals8, interp1D, interp2D, hag0, hag1, sub_zero]
    · simp only [shift_forward_kernel_nchwd, get_shifted_values, compute_interpolated,
        get_shifted_value_eq_specSampleAt, hWb, hD1, if_false, ite_false, if_true,
        ite_true, zeroVals8, specNLinear2, boolStep, interp1D, interp2D, add_zero,
        sub_zero]
      ring
  · have hW1 : ¬ 1 < sizeW := by omega
    constructor
    · simp only [shift_forward_kernel_nchwd, get_shifted_values, compute_interpolated,
        get_shifted_value_eq_specSampleAt, hW1, hDc, if_false, ite_false, if_true,
        ite_true, zeroVals8, interp1D, interp2D, interp3D, hag2, hag3, sub_zero]
    · simp only [shift_forward_kernel_nchwd, get_shifted_values, compute_interpolated,
        get_shifted_value_eq_specSampleAt, hW1, hDc, if_false, ite_false, if_true,
        ite_true, zeroVals8, specNLinear2, boolStep, interp1D, interp2D, interp3D,
        add_zero, sub_zero]
      ring

/-- Witness for C8 (amended), exercising all three extent configurations: a
1-D case (2,1,1), a 2-D case with extent-1 D (2,2,1), and a 3-D-selected
case with extent-1 W (2,1,2). -/
theorem C8_amended_extent1_WD_axes_inactive_witness :
    ((1 : ℤ) ≤ 1 ∧ (1 : ℤ) < 2) ∧
    (shift_forward_kernel_nchwd c8input (fun _ => 0) (fun _ => 1/2)
      0 0 0 0 0 2 1 1 0 0 1 0 0 0 0 0 0 BIPadding.Border true =
    shift_forward_kernel_nchwd c8input (fun _ => 0) (fun _ => 1/2)
      0 0 0 0 0 2 1 1 0 0 1 0 0 0 0 0 0 BIPadding.Border true ∧
    shift_forward_kernel_nchwd c8input (fun _ => 0) (fun _ => 1/2)
      0 0 0 0 0 2 1 1 0 0 1 0 0 0 0 0 0 BIPadding.Border true =
    interp1D
      (specSampleAt (fun a => c8input (0 * 0 + 0 * 0 + a)) (0 - (fun _ => (0:ℤ)) (0 * 0))
        0 0 2 1 1 1 0 0 BIPadding.Border)
      (specSampleAt (fun a => c8input (0 * 0 + 0 * 0 + a)) (0 - (fun _ => (0:ℤ)) (0 * 0) + 1)
        0 0 2 1 1 1 0 0 BIPadding.Border)
      ((fun _ => (1:ℚ)/2) ((0:ℤ) * 0))) ∧
    (shift_forward_kernel_nchwd c8input (fun _ => 0) (fun _ => 1/2)
      0 0 0 0 0 2 2 1 0 0 2 1 0 0 0 0 0 BIPadding.Zeros true =
    shift_forward_kernel_nchwd c8input (fun _ => 0) (fun _ => 1/2)
      0 0 0 0 0 2 2 1 0 0 2 1 0 0 0 0 0 BIPadding.Zeros true ∧
    shift_forward_kernel_nchwd c8input (fun _ => 0) (fun _ => 1/2)
      0 0 0 0 0 2 2 1 0 0 2 1 0 0 0 0 0 BIPadding.Zeros true =
    specNLinear2
      (fun a b =>
        specSampleAt (fun a2 => c8input (0 * 0 + 0 * 0 + a2))
          (0 - (fun _ => (0:ℤ)) (0 * 0) + boolStep a)
          (0 - (fun _ => (0:ℤ)) (0 * 0 + 0) + boolStep b) 0
          2 2 1 2 1 0 BIPadding.Zeros)
      ((fun _ => (1:ℚ)/2) ((0:ℤ) * 0)) ((fun _ => (1:ℚ)/2) ((0:ℤ) * 0 + 0))) ∧
    (shift_forward_kernel_nchwd c8input (fun _ => 0) (fun _ => 1/2)
      0 0 0 0 0 2 1 2 0 0 2 0 1 0 0 0 0 BIPadding.Zeros true =
    shift_forward_kernel_nchwd c8input (fun _ => 0) (fun _ => 1/2)
      0 0 0 0 0 2 1 2 0 0 2 0 1 0 0 0 0 BIPadding.Zeros true ∧
    shift_forward_kernel_nchwd c8input (fun _ => 0) (fun _ => 1/2)
      0 0 0 0 0 2 1 2 0 0 2 0 1 0 0 0 0 BIPadding.Zeros true =
    specNLinear2
      (fun a c2 =>
        specSampleAt (fun a2 => c8input (0 * 0 + 0 * 0 + a2))
          (0 - (fun _ => (0:ℤ)) (0 * 0) + boolStep a) 0
          (0 - (fun _ => (0:ℤ)) (0 * 0 + 2 * 0) + boolStep c2)
          2 1 2 2 0 1 BIPadding.Zeros)
      ((fun _ => (1:ℚ)/2) ((0:ℤ) * 0)) ((fun _ => (1:ℚ)/2) ((0:ℤ) * 0 + 2 * 0))) :=
  ⟨⟨by decide, by decide⟩,
   (C8_amended_extent1_WD_axes_inactive c8input (fun _ => 0) (fun _ => 1/2) (fun _ => 1/2)
      0 0 0 0 0 2 1 1 0 0 1 0 0 0 0 0 0 BIPadding.Border).1 (by decide) (by decide) rfl,
   (C8_amended_extent1_WD_axes_inactive c8input (fun _ => 0) (fun _ => 1/2) (fun _ => 1/2)
      0 0 0 0 0 2 2 1 0 0 2 1 0 0 0 0 0 BIPadding.Zeros).2.1
      (by decide) (by decide) rfl rfl,
   (C8_amended_extent1_WD_axes_inactive c8input (fun _ => 0) (fun _ => 1/2) (fun _ => 1/2)
      0 0 0 0 0 2 1 2 0 0 2 0 1 0 0 0 0 BIPadding.Zeros).2.2
      (by decide) (by decide) rfl rfl⟩

/-- C7 counterexample: for the non-interpolating (active = false) backward
call with weight 7/10, the derived fractional part is 7/10, not 0, and the
integer part round(7/10) = 1 plus the fractional part is 17/10, which does
not reconstruct the weight.  This refutes both the all-zero-when-inactive
clause and the unconditional reconstruction clause of the claim. -/
theorem C7_counterexample_inactive_frac :
    host_dweights_backward (7/10) ≠ 0 ∧
    ((host_iweights false (7/10) : ℚ) + host_dweights_backward (7/10) ≠ 7/10) := by
  constructor <;>
    norm_num [host_dweights_backward, host_iweights, torchRound, round_eq]

/-- C7 (amended): the fractional part, whenever it is actually derived from
the weights, lies in [0, 1); in interpolating mode the integer part is the
floor, so integer part plus fractional part reconstructs the weight in both
passes, and the forward and backward derivations agree.  In non-interpolating
mode the integer part is the rounded weight (reconstruction can fail for
fractional weights), the forward pass leaves the fractional buffer
uninitialized and unused, and the backward pass derives weight minus floor,
which need not be zero. -/
theorem C7_amended_fractional_part_invariant (w garbage : ℚ) :
    (0 ≤ host_dweights_backward w ∧ host_dweights_backward w < 1) ∧
    (host_iweights true w : ℚ) + host_dweights_backward w = w ∧
    host_dweights_forward true w garbage = host_dweights_backward w := by
  refine ⟨⟨?_, ?_⟩, ?_, rfl⟩
  · have := Int.floor_le w
    simp only [host_dweights_backward]
    linarith
  · have := Int.lt_floor_add_one w
    simp only [host_dweights_backward]
    linarith
  · simp only [host_iweights, if_pos, host_dweights_backward]
    ring

/-- C2 counterexample: the backward kernel does not read the upstream
gradient at coord + shift through the gradient's own strides.  In a 1-D
extent-2 configuration whose input spatial stride is 2 while the gradient's
is 1, the non-interpolating kernel at i = 1 stores gradient address 2 (value
5) instead of gradient address 1 (value 3), because the source (lines
186-197) addresses the gradient buffer with the input tensor's spatial
strides. -/
theorem C2_counterexample_grad_gather_strides :
    (shift_backward_kernel_nchwd_run c2env ⟨0, 0, 1, 0, 0⟩).1 ≠
    specBackwardInputGrad c2env ⟨0, 0, 1, 0, 0⟩ := by
  norm_num [shift_backward_kernel_nchwd_run, specBackwardInputGrad,
    backward_nchwd_shifts, backward_nchwd_dshifts, get_shifted_value,
    get_shifted_values, compute_interpolated, specSampleAt, interp1D, interp2D,
    interp3D, infer_index, mod, zeroVals8, c2env]

/-- C2 (amended): backward input-gradient rule with the strides the code
actually uses.  For every output coordinate, in interpolating mode the stored
input gradient is the N-linear interpolation, with the same fractional
offsets as forward, of the 2^rank corners read from the upstream-gradient
buffer at coord - shift but addressed with the INPUT tensor's spatial strides
(the batch/channel base offset uses the gradient's own strides); in
non-interpolating mode it is the upstream gradient read at coord + shift,
likewise addressed with the input's spatial strides.  Whenever the gradient's
spatial strides coincide with the input's, this is exactly the original rule
of reading the upstream gradient at coord ∓ shift. -/
theorem C2_amended_backward_input_gradient_rule (e : BwEnv) (p : Pos5) :
    (shift_backward_kernel_nchwd_run e p).1 =
      specBackwardInputGrad
        { e with input_grad_sH := e.input_sH, input_grad_sW := e.input_sW,
                 input_grad_sD := e.input_sD } p ∧
    (e.input_grad_sH = e.input_sH → e.input_grad_sW = e.input_sW →
      e.input_grad_sD = e.input_sD →
      (shift_backward_kernel_nchwd_run e p).1 = specBackwardInputGrad e p) := by
  have hA : (shift_backward_kernel_nchwd_run e p).1 =
      specBackwardInputGrad
        { e with input_grad_sH := e.input_sH, input_grad_sW := e.input_sW,
                 input_grad_sD := e.input_sD } p := by
    cases h : e.active with
    | false =>
        simp only [shift_backward_kernel_nchwd_run, specBackwardInputGrad, h,
          backward_nchwd_shifts, backward_nchwd_dshifts,
          Bool.false_eq_true, if_false, get_shifted_value_eq_specSampleAt]
    | true =>
        by_cases hD : 1 < e.sizeD <;> by_cases hW : 1 < e.sizeW <;>
          simp only [shift_backward_kernel_nchwd_run, specBackwardInputGrad, h,
            backward_nchwd_shifts, backward_nchwd_dshifts,
            get_shifted_values, compute_interpolated, get_shifted_value_eq_specSampleAt,
            boolStep, zeroVals8, specNLinear1, specNLinear2, specNLinear3,
            interp1D, interp2D, interp3D, hD, hW, if_true, if_false, ite_true,
            ite_false, add_zero] <;>
          ring
  refine ⟨hA, fun h1 h2 h3 => ?_⟩
  have he : ({ e with input_grad_sH := e.input_sH, input_grad_sW := e.input_sW,
                      input_grad_sD := e.input_sD } : BwEnv) = e := by
    cases e
    simp_all
  rw [he] at hA
  exact hA

/-- Witness for C2 (amended) at an environment whose gradient and input
spatial strides agree. -/
theorem C2_amended_backward_input_gradient_rule_witness :
    (c4env.input_grad_sH = c4env.input_sH ∧ c4env.input_grad_sW = c4env.input_sW ∧
      c4env.input_grad_sD = c4env.input_sD) ∧
    (shift_backward_kernel_nchwd_run c4env ⟨0, 0, 0, 0, 0⟩).1 =
      specBackwardInputGrad c4env ⟨0, 0, 0, 0, 0⟩ :=
  ⟨⟨rfl, rfl, rfl⟩,
    (C2_amended_backward_input_gradient_rule c4env ⟨0, 0, 0, 0, 0⟩).2 rfl rfl rfl⟩

theorem addweights_apply (e : BwEnv) (p : Pos5) (gw : ℤ → ℚ) (a : ℤ) :
    shift_backward_kernel_nchwd_addweights e p gw a =
      gw a + weights_grad_contribution_at e p a := by
  simp only [shift_backward_kernel_nchwd_addweights, weights_grad_contribution_at,
    ite_apply, applyAdd]
  split_ifs <;> ring

theorem run_backward_weights_grad_eq_sum (e : BwEnv) (l : List Pos5) (gw0 : ℤ → ℚ)
    (a : ℤ) :
    run_backward_weights_grad e l gw0 a =
      gw0 a + (l.map (fun p => weights_grad_contribution_at e p a)).sum := by
  induction l generalizing gw0 with
  | nil => simp [run_backward_weights_grad]
  | cons p l ih =>
      have hstep : run_backward_weights_grad e (p :: l) gw0 =
          run_backward_weights_grad e l (shift_backward_kernel_nchwd_addweights e p gw0) := rfl
      rw [hstep, ih]
      rw [addweights_apply]
      simp only [List.map_cons, List.sum_cons]
      ring

/-- C3: shift-parameter gradient accumulation.  Running the backward pass
over any list of iteration points adds (never assigns) each point's
contribution, i.e. the final accumulator entry at any address equals its
initial value plus the sum over all points of upstream-gradient times the
partial derivative of the interpolation for the (channel, axis) slots at
that address; the result is invariant under permuting the execution order;
and the _new_weights_grad components are the exact partial derivatives of
the kernel's interpolation with respect to each active fractional offset. -/
theorem C3_weights_grad_accumulation (e : BwEnv) (l : List Pos5) (gw0 : ℤ → ℚ) :
    (∀ a, run_backward_weights_grad e l gw0 a =
      gw0 a + (l.map (fun p => weights_grad_contribution_at e p a)).sum) ∧
    (∀ l2, l2.Perm l →
      run_backward_weights_grad e l2 gw0 = run_backward_weights_grad e l gw0) ∧
    (∀ v dH dW dD t, (1 < e.sizeH ∨ 1 < e.sizeW ∨ 1 < e.sizeD) →
      compute_interpolated v (dH + t) dW dD e.sizeH e.sizeW e.sizeD -
        compute_interpolated v dH dW dD e.sizeH e.sizeW e.sizeD =
      t * (compute_weight_gradients v dH dW dD e.sizeH e.sizeW e.sizeD (0, 0, 0)).1) ∧
    (∀ v dH dW dD t, 1 < e.sizeW →
      compute_interpolated v dH (dW + t) dD e.sizeH e.sizeW e.sizeD -
        compute_interpolated v dH dW dD e.sizeH e.sizeW e.sizeD =
      t * (compute_weight_gradients v dH dW dD e.sizeH e.sizeW e.sizeD (0, 0, 0)).2.1) ∧
    (∀ v dH dW dD t, 1 < e.sizeD →
      compute_interpolated v dH dW (dD + t) e.sizeH e.sizeW e.sizeD -
        compute_interpolated v dH dW dD e.sizeH e.sizeW e.sizeD =
      t * (compute_weight_gradients v dH dW dD e.sizeH e.sizeW e.sizeD (0, 0, 0)).2.2) := by
  refine ⟨fun a => run_backward_weights_grad_eq_sum e l gw0 a, ?_, ?_, ?_, ?_⟩
  · intro l2 hperm
    funext a
    rw [run_backward_weights_grad_eq_sum, run_backward_weights_grad_eq_sum,
      (hperm.map (fun p => weights_grad_contribution_at e p a)).sum_eq]
  · intro v dH dW dD t h
    by_cases hD : 1 < e.sizeD
    · simp only [compute_interpolated, compute_weight_gradients, hD, if_true, ite_true,
        interp3D, interp2D, interp1D, interp3D_dx]
      ring
    · by_cases hW : 1 < e.sizeW
      · simp only [compute_interpolated, compute_weight_gradients, hD, hW, if_true,
          if_false, ite_true, ite_false, interp2D, interp1D, interp2D_dx]
        ring
      · by_cases hH : 1 < e.sizeH
        · simp only [compute_interpolated, compute_weight_gradients, hD, hW, hH, if_true,
            if_false, ite_true, ite_false, interp1D, interp1D_dx]
          ring
        · rcases h with h | h | h <;> omega
  · intro v dH dW dD t hW
    by_cases hD : 1 < e.sizeD
    · simp only [compute_interpolated, compute_weight_gradients, hD, if_true, ite_true,
        interp3D, interp2D, interp1D, interp3D_dy]
      ring
    · simp only [compute_interpolated, compute_weight_gradients, hD, hW, if_true,
        if_false, ite_true, ite_false, interp2D, interp1D, interp2D_dy]
      ring
  · intro v dH dW dD t hD
    simp only [compute_interpolated, compute_weight_gradients, hD, if_true, ite_true,
      interp3D, interp2D, interp1D, interp3D_dz]
    ring

/-- Witness for C3: a two-position run is permutation invariant, and the
derivative-exactness clause holds at a concrete instance. -/
theorem C3_weights_grad_accumulation_witness :
    ([c3p1, c3p0].Perm [c3p0, c3p1] ∧
      run_backward_weights_grad c3env [c3p1, c3p0] (fun _ => 0) =
        run_backward_weights_grad c3env [c3p0, c3p1] (fun _ => 0)) ∧
    ((1 < c3env.sizeH ∨ 1 < c3env.sizeW ∨ 1 < c3env.sizeD) ∧
      compute_interpolated zeroVals8 (0 + 1) 0 0 c3env.sizeH c3env.sizeW c3env.sizeD -
        compute_interpolated zeroVals8 0 0 0 c3env.sizeH c3env.sizeW c3env.sizeD =
      1 * (compute_weight_gradients zeroVals8 0 0 0 c3env.sizeH c3env.sizeW c3env.sizeD
        (0, 0, 0)).1) :=
  ⟨⟨List.Perm.swap c3p0 c3p1 [],
    (C3_weights_grad_accumulation c3env [c3p0, c3p1] (fun _ => 0)).2.1
      [c3p1, c3p0] (List.Perm.swap c3p0 c3p1 [])⟩,
   ⟨Or.inl (by decide),
    (C3_weights_grad_accumulation c3env [c3p0, c3p1] (fun _ => 0)).2.2.1
      zeroVals8 0 0 0 1 (Or.inl (by decide))⟩⟩

/-- C9: FALSIFIED by the code.  In every channel iteration of
shift_backward_kernel_nhwdc the store of the channel's first-axis fractional
offset targets dshifts index 3, which is not below the declared array length
3, and index 0 is never stored, so when dshifts[0] is consumed it holds the
stale previous contents (the initial zero), not the current channel's
fractional offset. -/
theorem C9_nhwdc_dshifts_oob_and_stale (e : BwEnv) (n i j k c : ℤ) (st : NhwdcState) :
    dshifts_declared_len = 3 ∧
    (nhwdc_bw_step e n i j k st c).dshifts 3 = e.dweights (c * e.dweights_sC) ∧
    (nhwdc_bw_step e n i j k st c).dshifts 0 = st.dshifts 0 := by
  refine ⟨rfl, ?_, ?_⟩ <;>
    · simp only [nhwdc_bw_step]
      by_cases hW : 1 < e.sizeW <;> by_cases hD : 1 < e.sizeD <;>
        simp [hW, hD, Function.update]

/-- C4 counterexample: on the same logical tensor contents the channel-major
backward kernel stores input-gradient 2 at element (0,0,0,0,0) (blend of 1
and 3 with fractional offset 1/2), while the channel-last backward kernel
stores 1 there, because its dshifts[0] is the stale zero left by the
out-of-bounds store at line 277; the two layout variants are not
bit-identical. -/
theorem C4_backward_layout_divergence :
    (shift_backward_kernel_nchwd_run c4env ⟨0, 0, 0, 0, 0⟩).1 ≠
    (shift_backward_kernel_nhwdc c4env 1 0 0 0 0 (fun _ => 0) (fun _ => 0)).output_grad 0 := by
  norm_num [shift_backward_kernel_nchwd_run, shift_backward_kernel_nhwdc,
    nhwdc_bw_step, nhwdc_bw_init, backward_nchwd_shifts, backward_nchwd_dshifts,
    get_shifted_values, get_shifted_value, compute_interpolated,
    compute_weight_gradients, interp1D, interp1D_dx, interp2D, interp3D,
    infer_index, mod, zeroVals8, c4env, Function.update, applyAdd,
    List.range_succ, List.range_zero]
